import Mathlib

/-
  Verification of the SMR driver layer of the overlord consensus engine
  (src/smr/mod.rs): the trigger-ingestion handler, the drive loop started
  by run(), the one-time producer-handle hand-off, and the Event stream
  wrappers.  Pure shallow embedding: channel state is passed explicitly,
  machine integers are Nat with explicit wrap-around where it matters.
-/

namespace Overlord

/-- Addresses are byte strings (crate type Address = Bytes). -/
abbrev Address := List Nat

/-- Hashes are byte strings (crate type Hash = Bytes). -/
abbrev Hash := List Nat

/-- Hash::new() is the empty byte string. -/
def Hash.new : Hash := []

/-- Modelled from the spec: protocol step within a round (smr_types.rs is
not under src).  Total order Propose, Prevote, Precommit, Commit. -/
inductive Step
  | Propose
  | Prevote
  | Precommit
  | Commit
  deriving DecidableEq, Repr

/-- Modelled from the spec: SMRStatus is a complete snapshot of FSM
position, fields height, round, step, hash (smr_types.rs is not under
src; mod.rs reads the height field). -/
structure SMRStatus where
  height : Nat
  round : Nat
  step : Step
  hash : Hash
  deriving DecidableEq, Repr

/-- Modelled from the spec: WAL recovery payload carried by Recovery
triggers (smr_types.rs is not under src). -/
structure WalInfo where
  height : Nat
  round : Nat
  step : Step
  lock : Option Hash
  deriving DecidableEq, Repr

/-- Modelled from the spec: the trigger type tag, one of NewHeight(Status),
Proposal, PrevoteQC, PrecommitQC, Vote, ContinueRound, Timeout, Recovery
(smr_types.rs is not under src). -/
inductive TriggerType
  | NewHeight (status : SMRStatus)
  | Proposal
  | PrevoteQC
  | PrecommitQC
  | Vote
  | ContinueRound
  | Timeout
  | Recovery
  deriving DecidableEq, Repr

/-- Modelled from the spec: Display/to_string of a TriggerType yields the
type tag of the trigger (smr_types.rs is not under src). -/
def TriggerType.to_string : TriggerType → String
  | .NewHeight _ => "NewHeight"
  | .Proposal => "Proposal"
  | .PrevoteQC => "PrevoteQC"
  | .PrecommitQC => "PrecommitQC"
  | .Vote => "Vote"
  | .ContinueRound => "ContinueRound"
  | .Timeout => "Timeout"
  | .Recovery => "Recovery"

/-- Modelled from the spec: the Trigger record with fields type, source,
hash, optional round, height, optional wal_info (smr_types.rs is not
under src; mod.rs constructs one in new_height_status). -/
inductive TriggerSource
  | State
  | Network
  | Timer
  deriving DecidableEq, Repr

/-- The SMRTrigger record, field names as in the source construction at
mod.rs lines 108-115. -/
structure SMRTrigger where
  trigger_type : TriggerType
  source : TriggerSource
  hash : Hash
  round : Option Nat
  height : Nat
  wal_info : Option WalInfo
  deriving DecidableEq, Repr

/-- Modelled from the spec: output events of the FSM, protocol variants
and timer variants (smr_types.rs is not under src). -/
inductive SMREvent
  | NewRoundInfo (height round : Nat)
  | PrevoteVote (hash : Hash)
  | PrecommitVote (hash : Hash)
  | Commit (height : Nat) (hash : Hash)
  | ScheduleTimeout (height round : Nat) (step : Step)
  | CancelTimeout (step : Step)
  deriving DecidableEq, Repr

/-- Consensus errors used by this layer: TriggerSMRErr carries the failed
trigger's type tag (error.rs is not under src; mod.rs constructs
ConsensusError::TriggerSMRErr, and the spec names OutOfOrderHeight). -/
inductive ConsensusError
  | TriggerSMRErr (tag : String)
  | OutOfOrderHeight (msg : String)
  | Other (msg : String)
  deriving DecidableEq, Repr

/-- ConsensusResult as in the crate: Result with ConsensusError errors. -/
abbrev ConsensusResult (α : Type) := Except ConsensusError α

/-- State of a futures unbounded mpsc channel, modelled from the library
contract: a FIFO buffer (head is oldest), the count of live sender
clones, and whether the receiving end is still alive. -/
structure Channel (α : Type) where
  buffer : List α
  senders : Nat
  receiverAlive : Bool
  deriving DecidableEq, Repr

/-- unbounded_send, modelled from the futures library contract: appends
at the tail and succeeds exactly when the receiving end is alive; it
never blocks (it is a total function) and never drops a value it
accepted. -/
def Channel.unbounded_send {α : Type} (ch : Channel α) (x : α) :
    Except Unit (Channel α) :=
  if ch.receiverAlive then
    .ok { ch with buffer := ch.buffer ++ [x] }
  else
    .error ()

/-- Poll outcome of a stream: Ready a value or Pending. -/
inductive Poll (α : Type)
  | Ready (v : α)
  | Pending
  deriving Repr

/-- poll_next on the receiving end, modelled from the futures library
contract: yields the oldest buffered value; on an empty buffer yields
None exactly when every sender is gone, otherwise suspends. -/
def Channel.poll_next {α : Type} (ch : Channel α) :
    Poll (Option α) × Channel α :=
  match ch.buffer with
  | x :: rest => (.Ready (some x), { ch with buffer := rest })
  | [] =>
    if ch.senders == 0 then (.Ready none, ch)
    else (.Pending, ch)

/-- is_terminated on the receiving end, modelled from the library
contract: the stream is exhausted when the channel is closed (no live
sender) and drained. -/
def Channel.is_terminated {α : Type} (ch : Channel α) : Bool :=
  ch.senders == 0 && ch.buffer.isEmpty

/-- SMRHandler wraps the send end of the trigger queue (mod.rs lines
84-87); the queue state itself is threaded explicitly through its
methods. -/
structure SMRHandler where
  tx : Unit
  deriving DecidableEq, Repr

/-- SMRHandler::new (mod.rs lines 91-93). -/
def SMRHandler.new (sender : Unit) : SMRHandler :=
  { tx := sender }

/-- SMRHandler::trigger (mod.rs lines 96-101): records the trigger's type
tag, sends the trigger on the unbounded channel, and maps a send failure
to TriggerSMRErr with that tag. -/
def SMRHandler.trigger (self : SMRHandler) (gate : SMRTrigger)
    (ch : Channel SMRTrigger) :
    ConsensusResult Unit × Channel SMRTrigger :=
  let trigger_type := gate.trigger_type.to_string
  match ch.unbounded_send gate with
  | .ok ch2 => (.ok (), ch2)
  | .error _ => (.error (.TriggerSMRErr trigger_type), ch)

/-- SMRHandler::new_height_status (mod.rs lines 104-117): builds a
NewHeight trigger sourced from State with empty hash, no round, no
wal_info, top-level height taken from the status, and sends it,
mapping a send failure to TriggerSMRErr with the NewHeight tag. -/
def SMRHandler.new_height_status (self : SMRHandler) (status : SMRStatus)
    (ch : Channel SMRTrigger) :
    ConsensusResult Unit × Channel SMRTrigger :=
  let height := status.height
  let trigger := TriggerType.NewHeight status
  match ch.unbounded_send
      { trigger_type := trigger
        source := TriggerSource.State
        hash := Hash.new
        round := none
        height := height
        wal_info := none } with
  | .ok ch2 => (.ok (), ch2)
  | .error _ => (.error (.TriggerSMRErr trigger.to_string), ch)

/-- Event wraps the receive end of an event channel (mod.rs lines
121-124). -/
structure Event where
  rx : Channel SMREvent
  deriving DecidableEq, Repr

/-- Event::new (mod.rs lines 141-143). -/
def Event.new (receiver : Channel SMREvent) : Event :=
  { rx := receiver }

/-- Stream::poll_next for Event (mod.rs lines 129-131): delegates to the
underlying receiver. -/
def Event.poll_next (e : Event) : Poll (Option SMREvent) × Event :=
  match e.rx.poll_next with
  | (r, rx2) => (r, { rx := rx2 })

/-- FusedStream::is_terminated for Event (mod.rs lines 135-137):
delegates to the underlying receiver. -/
def Event.is_terminated (e : Event) : Bool :=
  e.rx.is_terminated

/-- Modelled from the spec: the StateMachine owns the receive end of the
trigger queue and the FSM position (state_machine.rs is not under src;
mod.rs only wires it). -/
structure StateMachine where
  rx : Channel SMRTrigger
  height : Nat
  round : Nat
  step : Step
  locked_hash : Option Hash
  deriving DecidableEq, Repr

/-- Modelled from the spec: StateMachine::new(rx) wires the two event
channels (protocol and timer) and returns them with the machine seeded
at height 0, round 0, step Propose (state_machine.rs is not under src). -/
def StateMachine.new (rx : Channel SMRTrigger) :
    StateMachine × Event × Event :=
  let evt_state : Event := Event.new { buffer := [], senders := 1, receiverAlive := true }
  let evt_timer : Event := Event.new { buffer := [], senders := 1, receiverAlive := true }
  ({ rx := rx, height := 0, round := 0, step := Step.Propose, locked_hash := none },
    evt_state, evt_timer)

/-- The world visible outside one SMR instance: the shared diagnostics
counter (Arc of Mutex of u64 thread_num).  Lock acquisition is atomic in
this model, so the counter is a plain Nat reduced mod two to the 64. -/
structure World where
  thread_num : Nat
  deriving DecidableEq, Repr

/-- The SMR driver struct (mod.rs lines 24-30).  The thread_num field of
the Rust struct is a clone of the shared Arc, so the counter itself
lives in World and the struct keeps no separate copy. -/
structure SMR where
  address : Address
  test_id : Nat
  smr_handler : Option SMRHandler
  state_machine : StateMachine
  deriving DecidableEq, Repr

/-- SMR::new (mod.rs lines 33-48): builds the unbounded trigger channel,
the handler on its send end, the state machine with its two event
streams, clones the counter Arc (sharing, no mutation), and stores the
handler in the optional field. -/
def SMR.new (address : Address) (w : World) (test_id : Nat) :
    (SMR × Event × Event) × World :=
  let rx : Channel SMRTrigger := { buffer := [], senders := 1, receiverAlive := true }
  let smr := SMRHandler.new ()
  match StateMachine.new rx with
  | (state_machine, evt_state, evt_timer) =>
    (({ address := address
        test_id := test_id
        smr_handler := some smr
        state_machine := state_machine },
      evt_state, evt_timer), w)

/-- SMR::take_smr (mod.rs lines 51-54): asserts the handler is still
present and takes it.  The second call fires the assertion, modelled as
none; a successful call returns the handler and the driver with the
field emptied. -/
def SMR.take_smr (s : SMR) : Option (SMRHandler × SMR) :=
  match s.smr_handler with
  | some h => some (h, { s with smr_handler := none })
  | none => none

/-- The body of the loop in SMR::run (mod.rs lines 67-74), over the finite
sequence of outcomes the state-machine stream yields before exhaustion:
an Ok outcome is skipped, an Err outcome is logged, and the list of
logged errors is returned when the sequence is exhausted. -/
def driveLoop : List (ConsensusResult Unit) → List ConsensusError
  | [] => []
  | .ok _ :: rest => driveLoop rest
  | .error e :: rest => e :: driveLoop rest

/-- Small-step view of the loop in SMR::run: the pending outcomes still
to be yielded and the errors logged so far; halted is the state after
the break at mod.rs line 72. -/
inductive LoopState
  | running (pending : List (ConsensusResult Unit)) (logged : List ConsensusError)
  | halted (logged : List ConsensusError)
  deriving Repr

/-- One iteration of the loop in SMR::run (mod.rs lines 67-74): Some(Ok)
continues, Some(Err) logs the error and continues, None breaks; a halted
loop stays halted. -/
def loopStep : LoopState → LoopState
  | .running [] logged => .halted logged
  | .running (.ok _ :: rest) logged => .running rest logged
  | .running (.error e :: rest) logged => .running rest (logged ++ [e])
  | .halted logged => .halted logged

/-- Whether a loop state is halted. -/
def LoopState.isHalted : LoopState → Bool
  | .running _ _ => false
  | .halted _ => true

/-- Wrap-around of the u64 diagnostics counter. -/
def wrap64 (n : Nat) : Nat := n % 2 ^ 64

/-- The increment of thread_num under its lock at mod.rs line 64. -/
def lockInc (c : Nat) : Nat := wrap64 (c + 1)

/-- The decrement of thread_num under its lock at mod.rs line 76
(u64 wrapping subtraction of one). -/
def lockDec (c : Nat) : Nat := wrap64 (c + (2 ^ 64 - 1))

/-- The task spawned by SMR::run (mod.rs lines 62-79): increments the
shared counter under its lock, runs the drive loop, decrements the
counter under its lock.  Returns the counter value while the loop runs,
the errors the loop logged, and the final counter value. -/
def SMR.runTask (c : Nat) (outcomes : List (ConsensusResult Unit)) :
    Nat × List ConsensusError × Nat :=
  let c1 := lockInc c
  let logged := driveLoop outcomes
  let c2 := lockDec c1
  (c1, logged, c2)

/-- Combined state of one running SMR instance, for the shutdown claims:
the trigger-queue buffer, how many cloned trigger handles are still
alive, the two event-channel buffers with the liveness of their
consumers, whether the drive loop has exited, and the errors it logged. -/
structure SMSystem where
  queue : List SMRTrigger
  handles : Nat
  protoBuf : List SMREvent
  timerBuf : List SMREvent
  protoConsumerAlive : Bool
  timerConsumerAlive : Bool
  haltedFlag : Bool
  logged : List ConsensusError
  deriving DecidableEq, Repr

/-- Outcome of one advance of the state-machine stream. -/
inductive NextOutcome
  | yielded (r : ConsensusResult Unit)
  | exhausted
  | pending
  deriving Repr

/-- Modelled from the spec: one advance of the state-machine stream pulls
exactly one trigger when one is buffered, yielding the processing
outcome and appending the emitted events to the two event channels; on
an empty buffer it ends the sequence cleanly exactly when every trigger
handle is gone, and otherwise suspends (state_machine.rs is not under
src).  The processing outcome and emitted events are abstracted by the
process parameter, so the theorems hold for every transition table. -/
def smNext (process : SMRTrigger → ConsensusResult Unit × List SMREvent × List SMREvent)
    (s : SMSystem) : NextOutcome × SMSystem :=
  match s.queue with
  | t :: rest =>
    match process t with
    | (r, evp, evt) =>
      (.yielded r,
        { s with queue := rest
                 protoBuf := s.protoBuf ++ evp
                 timerBuf := s.timerBuf ++ evt })
  | [] =>
    if s.handles == 0 then (.exhausted, s)
    else (.pending, s)

/-- One scheduler step of the drive task (mod.rs lines 67-74) over the
combined system state: a yielded Ok continues, a yielded Err is logged
and continues, exhaustion breaks the loop, a pending pull leaves the
state unchanged; a halted task takes no step. -/
def driveStep (process : SMRTrigger → ConsensusResult Unit × List SMREvent × List SMREvent)
    (s : SMSystem) : SMSystem :=
  if s.haltedFlag then s
  else
    match smNext process s with
    | (.yielded (.ok _), s2) => s2
    | (.yielded (.error e), s2) => { s2 with logged := s2.logged ++ [e] }
    | (.exhausted, s2) => { s2 with haltedFlag := true }
    | (.pending, s2) => s2

/-- Dropping one cloned trigger handle. -/
def dropHandle (s : SMSystem) : SMSystem :=
  { s with handles := s.handles - 1 }

/-- Dropping the consumer of the protocol event stream. -/
def dropProtoConsumer (s : SMSystem) : SMSystem :=
  { s with protoConsumerAlive := false }

/-- Dropping the consumer of the timer event stream. -/
def dropTimerConsumer (s : SMSystem) : SMSystem :=
  { s with timerConsumerAlive := false }

/-- Pull up to n events from an Event stream by repeated poll_next,
stopping at the first poll that is not Ready-some. -/
def Event.collect : Nat → Event → List SMREvent
  | 0, _ => []
  | n + 1, e =>
    match e.poll_next with
    | (.Ready (some v), e2) => v :: Event.collect n e2
    | (.Ready none, _) => []
    | (.Pending, _) => []

/-- One atomic operation on the trigger queue: an enqueue by the producer
holding cloned handle p, or the single consumer pulling the next
trigger. -/
inductive QOp
  | enq (p : Nat) (t : SMRTrigger)
  | deq
  deriving DecidableEq, Repr

/-- History state of the trigger queue: the pending buffer, the triggers
successfully enqueued in arrival order, and the triggers delivered to
the state machine in delivery order. -/
structure QState where
  queue : List SMRTrigger
  sent : List SMRTrigger
  delivered : List SMRTrigger
  deriving DecidableEq, Repr

/-- Effect of one atomic queue operation, modelled from the futures
unbounded mpsc contract: an enqueue from any cloned handle appends at
the tail, the consumer removes from the head; a pull on an empty queue
delivers nothing. -/
def qstep (s : QState) : QOp → QState
  | .enq _ t =>
    { s with queue := s.queue ++ [t], sent := s.sent ++ [t] }
  | .deq =>
    match s.queue with
    | [] => s
    | t :: rest => { s with queue := rest, delivered := s.delivered ++ [t] }

/-- Run a finite interleaving of queue operations from a state. -/
def qrun (s : QState) (ops : List QOp) : QState :=
  ops.foldl qstep s

/-- The initial queue state wired by SMR::new: empty queue, nothing sent,
nothing delivered. -/
def qinit : QState :=
  { queue := [], sent := [], delivered := [] }

/-- Helper: iterating the loop one step past the length of the pending
outcome list halts the loop with exactly the errors of the list appended
to the log. -/
theorem loopStep_iterate_halts (outcomes : List (ConsensusResult Unit))
    (logged : List ConsensusError) :
    loopStep^[outcomes.length + 1] (LoopState.running outcomes logged) =
      LoopState.halted (logged ++ driveLoop outcomes) := by
  induction outcomes generalizing logged with
  | nil => simp [loopStep, driveLoop]
  | cons o rest ih =>
    cases o with
    | ok v =>
      rw [List.length_cons, Function.iterate_succ_apply]
      show loopStep^[rest.length + 1] (loopStep (LoopState.running (Except.ok v :: rest) logged)) = _
      rw [show loopStep (LoopState.running (Except.ok v :: rest) logged) =
            LoopState.running rest logged from rfl]
      rw [ih logged]
      rfl
    | error e =>
      rw [List.length_cons, Function.iterate_succ_apply]
      show loopStep^[rest.length + 1] (loopStep (LoopState.running (Except.error e :: rest) logged)) = _
      rw [show loopStep (LoopState.running (Except.error e :: rest) logged) =
            LoopState.running rest (logged ++ [e]) from rfl]
      rw [ih (logged ++ [e])]
      simp [driveLoop]

/-- Helper: one queue operation preserves the delivery invariant that the
delivered prefix followed by the pending buffer is exactly the sent
sequence. -/
theorem qstep_preserves_inv (s : QState) (op : QOp)
    (h : s.delivered ++ s.queue = s.sent) :
    (qstep s op).delivered ++ (qstep s op).queue = (qstep s op).sent := by
  cases op with
  | enq p t =>
    simp only [qstep]
    rw [← List.append_assoc, h]
  | deq =>
    cases hq : s.queue with
    | nil => simpa [qstep, hq] using h
    | cons t rest =>
      simp only [qstep, hq]
      rw [List.append_assoc]
      simpa [hq] using h

/-- Helper: every finite interleaving of queue operations preserves the
delivery invariant. -/
theorem qrun_preserves_inv (ops : List QOp) (s : QState)
    (h : s.delivered ++ s.queue = s.sent) :
    (qrun s ops).delivered ++ (qrun s ops).queue = (qrun s ops).sent := by
  induction ops generalizing s with
  | nil => simpa [qrun] using h
  | cons op rest ih =>
    have h2 := qstep_preserves_inv s op h
    simpa [qrun, List.foldl_cons] using ih (qstep s op) h2

/-- Helper: collecting as many events as are buffered on an event stream
returns exactly the buffered events in order, whatever the sender
count. -/
theorem event_collect_all (buf : List SMREvent) (n : Nat) :
    Event.collect buf.length (Event.new { buffer := buf, senders := n, receiverAlive := true }) = buf := by
  induction buf with
  | nil => rfl
  | cons v rest ih =>
    simpa [Event.collect, Event.poll_next, Event.new, Channel.poll_next] using ih

/-- C1: for every trigger value, SMRHandler.trigger enqueues it at the
tail and returns Ok when the queue's consuming end is alive, and returns
Err TriggerSMRErr carrying the trigger's type tag exactly when the
consuming end has been dropped; the call is a total function (it never
blocks) and the Ok outcome holds if and only if the consuming end is
alive, so this is the only failure mode and no accepted trigger is
dropped. -/
theorem trigger_enqueue_contract (h : SMRHandler) (gate : SMRTrigger)
    (ch : Channel SMRTrigger) :
    SMRHandler.trigger h gate ch =
      (if ch.receiverAlive then
        (Except.ok (), { ch with buffer := ch.buffer ++ [gate] })
       else
        (Except.error (ConsensusError.TriggerSMRErr gate.trigger_type.to_string), ch))
    ∧ ((SMRHandler.trigger h gate ch).1 = Except.ok () ↔ ch.receiverAlive = true) := by
  constructor
  · cases hr : ch.receiverAlive <;>
      simp [SMRHandler.trigger, Channel.unbounded_send, hr]
  · cases hr : ch.receiverAlive <;>
      simp [SMRHandler.trigger, Channel.unbounded_send, hr]

/-- C2: the loop of SMR::run, viewed over the outcome sequence the
state-machine stream yields: an Ok outcome continues the loop, an Err
outcome is logged and the loop continues, the loop halts from a running
state exactly when the sequence is exhausted, and a full run over any
finite outcome sequence halts with exactly the errors of that sequence
logged. -/
theorem run_loop_contract :
    (∀ rest logged v, loopStep (LoopState.running (Except.ok v :: rest) logged) =
      LoopState.running rest logged)
    ∧ (∀ rest logged e, loopStep (LoopState.running (Except.error e :: rest) logged) =
      LoopState.running rest (logged ++ [e]))
    ∧ (∀ logged, loopStep (LoopState.running [] logged) = LoopState.halted logged)
    ∧ (∀ pending logged,
        (loopStep (LoopState.running pending logged)).isHalted = true ↔ pending = [])
    ∧ (∀ outcomes, loopStep^[outcomes.length + 1] (LoopState.running outcomes []) =
        LoopState.halted (driveLoop outcomes)) := by
  refine ⟨fun rest logged v => rfl, fun rest logged e => rfl, fun logged => rfl, ?_, ?_⟩
  · intro pending logged
    cases pending with
    | nil => simp [loopStep, LoopState.isHalted]
    | cons o rest =>
      cases o <;> simp [loopStep, LoopState.isHalted]
  · intro outcomes
    simpa using loopStep_iterate_halts outcomes []

/-- C3: on a freshly constructed driver the first take_smr succeeds and
returns the producer handle built by SMR::new, and a second take_smr on
the driver returned by the first call fails (the internal assertion
fires, modelled as none). -/
theorem take_smr_single_use (a : Address) (w : World) (t : Nat) :
    ((SMR.new a w t).1.1.take_smr).map Prod.fst = some (SMRHandler.new ())
    ∧ ((SMR.new a w t).1.1.take_smr).map (fun pr => pr.2.take_smr) = some none :=
  ⟨rfl, rfl⟩

/-- C4: new_height_status builds exactly the trigger with type
NewHeight(status), source State, empty hash, no round, no wal_info and
top-level height equal to status.height, and sends it through the same
path as trigger, so it inherits the same success and failure
contract; and the constructed hash really is the empty one. -/
theorem new_height_status_is_sugar (h : SMRHandler) (status : SMRStatus)
    (ch : Channel SMRTrigger) :
    SMRHandler.new_height_status h status ch =
      SMRHandler.trigger h
        { trigger_type := TriggerType.NewHeight status
          source := TriggerSource.State
          hash := Hash.new
          round := none
          height := status.height
          wal_info := none } ch
    ∧ Hash.new = ([] : Hash) :=
  ⟨rfl, rfl⟩

/-- C5: a running drive task halts in a step exactly when every cloned
trigger handle has been dropped and the queue is drained; a halted task
never steps again (termination happens at most once); dropping an event
stream consumer never changes the halted flag and commutes with the
drive step; and a step that consumes a trigger never halts the loop,
whatever outcome the state machine produces for it. -/
theorem drive_loop_termination
    (process : SMRTrigger → ConsensusResult Unit × List SMREvent × List SMREvent)
    (s : SMSystem) :
    ((driveStep process s).haltedFlag = true ↔
      (s.haltedFlag = true ∨ (s.queue = [] ∧ s.handles = 0)))
    ∧ (driveStep process { s with haltedFlag := true } = { s with haltedFlag := true })
    ∧ ((dropProtoConsumer s).haltedFlag = s.haltedFlag)
    ∧ ((dropTimerConsumer s).haltedFlag = s.haltedFlag)
    ∧ (driveStep process (dropProtoConsumer s) = dropProtoConsumer (driveStep process s))
    ∧ (driveStep process (dropTimerConsumer s) = dropTimerConsumer (driveStep process s))
    ∧ (∀ t rest,
        (driveStep process { s with queue := t :: rest, haltedFlag := false }).haltedFlag = false) := by
  obtain ⟨q, hs, pb, tb, pc, tc, hf, lg⟩ := s
  refine ⟨?_, ?_, rfl, rfl, ?_, ?_, ?_⟩
  · cases hf with
    | true => simp [driveStep]
    | false =>
      cases q with
      | nil =>
        by_cases hh : hs = 0 <;>
          simp [driveStep, smNext, hh]
      | cons t rest =>
        cases hr : process t with
        | mk r ev =>
          cases r <;> simp [driveStep, smNext, hr]
  · simp [driveStep]
  · cases hf with
    | true => simp [driveStep, dropProtoConsumer]
    | false =>
      cases q with
      | nil =>
        by_cases hh : hs = 0 <;>
          simp [driveStep, smNext, dropProtoConsumer, hh]
      | cons t rest =>
        cases hr : process t with
        | mk r ev =>
          cases r <;> simp [driveStep, smNext, dropProtoConsumer, hr]
  · cases hf with
    | true => simp [driveStep, dropTimerConsumer]
    | false =>
      cases q with
      | nil =>
        by_cases hh : hs = 0 <;>
          simp [driveStep, smNext, dropTimerConsumer, hh]
      | cons t rest =>
        cases hr : process t with
        | mk r ev =>
          cases r <;> simp [driveStep, smNext, dropTimerConsumer, hr]
  · intro t rest
    cases hr : process t with
    | mk r ev =>
      cases r <;> simp [driveStep, smNext, hr]

/-- C6: over a complete run of the spawned task the shared diagnostics
counter is incremented by exactly one before the loop and decremented by
exactly one after it, so its final value equals its initial value, and
the errors the loop logs do not depend on the counter at all. -/
theorem counter_net_zero (c : Nat) (outcomes : List (ConsensusResult Unit))
    (h : c < 2 ^ 64) :
    (SMR.runTask c outcomes).2.2 = c
    ∧ (SMR.runTask c outcomes).1 = wrap64 (c + 1)
    ∧ (SMR.runTask c outcomes).2.1 = driveLoop outcomes := by
  refine ⟨?_, rfl, rfl⟩
  simp only [SMR.runTask, lockInc, lockDec, wrap64]
  omega

/-- Witness for C6 at counter 7 and a one-error outcome sequence. -/
theorem counter_net_zero_witness :
    (SMR.runTask 7 [Except.error (ConsensusError.Other "x")]).2.2 = 7
    ∧ (SMR.runTask 7 [Except.error (ConsensusError.Other "x")]).1 = wrap64 8
    ∧ (SMR.runTask 7 [Except.error (ConsensusError.Other "x")]).2.1 =
        driveLoop [Except.error (ConsensusError.Other "x")] :=
  counter_net_zero 7 [Except.error (ConsensusError.Other "x")] (by norm_num)

/-- C7: the state-machine sequence ends cleanly (exhausted, not an
error) exactly when the trigger queue is drained and every handle is
gone; the step that exits the loop adds and removes nothing on either
event buffer; every event already buffered on an event stream is still
collectable, in order, after the drive task (its only sender) is gone,
after which polling reports a clean end of stream; and an event stream
reports terminated exactly when its channel is closed and drained. -/
theorem queue_closure_clean_shutdown
    (process : SMRTrigger → ConsensusResult Unit × List SMREvent × List SMREvent)
    (s : SMSystem) (ev : Event) :
    ((smNext process s).1 = NextOutcome.exhausted ↔ (s.queue = [] ∧ s.handles = 0))
    ∧ ((driveStep process { s with queue := [] }).protoBuf = s.protoBuf)
    ∧ ((driveStep process { s with queue := [] }).timerBuf = s.timerBuf)
    ∧ (∀ buf : List SMREvent,
        Event.collect buf.length
          (Event.new { buffer := buf, senders := 0, receiverAlive := true }) = buf)
    ∧ ((Event.new { buffer := [], senders := 0, receiverAlive := true }).poll_next =
        (Poll.Ready none, Event.new { buffer := [], senders := 0, receiverAlive := true }))
    ∧ (ev.is_terminated = true ↔ (ev.rx.senders = 0 ∧ ev.rx.buffer = [])) := by
  obtain ⟨q, hs, pb, tb, pc, tc, hf, lg⟩ := s
  refine ⟨?_, ?_, ?_, ?_, rfl, ?_⟩
  · cases q with
    | nil =>
      by_cases hh : hs = 0 <;> simp [smNext, hh]
    | cons t rest =>
      cases hr : process t with
      | mk r evs => simp [smNext, hr]
  · cases hf with
    | true => simp [driveStep]
    | false =>
      by_cases hh : hs = 0 <;> simp [driveStep, smNext, hh]
  · cases hf with
    | true => simp [driveStep]
    | false =>
      by_cases hh : hs = 0 <;> simp [driveStep, smNext, hh]
  · intro buf
    exact event_collect_all buf 0
  · obtain ⟨⟨b, sn, ra⟩⟩ := ev
    simp [Event.is_terminated, Channel.is_terminated, List.isEmpty_iff]

/-- C8: for every finite interleaving of enqueues from any set of cloned
handles with pulls by the single consumer, starting from the queue wired
by SMR::new, the delivered sequence followed by the still-pending buffer
is exactly the sequence of successful enqueues in arrival order: every
accepted trigger is delivered at most once, none is dropped and none is
reordered, and what has been delivered is precisely the arrival-order
prefix of the accepted triggers. -/
theorem fifo_exactly_once_delivery (ops : List QOp) :
    (qrun qinit ops).delivered ++ (qrun qinit ops).queue = (qrun qinit ops).sent
    ∧ (qrun qinit ops).delivered =
        (qrun qinit ops).sent.take (qrun qinit ops).delivered.length := by
  have hinv := qrun_preserves_inv ops qinit rfl
  refine ⟨hinv, ?_⟩
  rw [← hinv, List.take_left]

/-- C9: the producer boundary validates nothing: whatever the trigger's
type, height, round, hash or wal_info, SMRHandler.trigger answers Ok
whenever the queue's consuming end is alive. -/
theorem trigger_no_validation (h : SMRHandler) (gate : SMRTrigger)
    (q : List SMRTrigger) (n : Nat) :
    (SMRHandler.trigger h gate { buffer := q, senders := n, receiverAlive := true }).1 =
      Except.ok () := by
  simp [SMRHandler.trigger, Channel.unbounded_send]

/-- C10: SMR::new leaves the world, and with it the shared diagnostics
counter, untouched for every address, counter state and test id; the
counter moves only with the run task, which raises it on loop entry and
restores it on loop exit. -/
theorem new_does_not_touch_counter (a : Address) (w : World) (t : Nat) :
    (SMR.new a w t).2 = w
    ∧ (SMR.runTask 0 []).1 = 1
    ∧ (SMR.runTask 0 []).2.2 = 0 :=
  ⟨rfl, by norm_num [SMR.runTask, lockInc, wrap64], by norm_num [SMR.runTask, lockInc, lockDec, wrap64]⟩

end Overlord
